import Mathlib

/-!
Shallow embedding of `shaka.util.CmcdManager` (src/lib/util/cmcd_manager.js):
CMCD (CTA-5004) state tracking, payload derivation and serialization.

JavaScript numbers are modelled as rational values, represented by an
(unnormalised) integer fraction `n / d`; all arithmetic the module performs
(multiplication, subtraction, division by constants, `Math.round`,
comparisons and strict equality) is value-level on these fractions.
JavaScript strings are Lean `String`s; the module only compares and
concatenates them, and JS string comparison (UTF-16 code-unit order)
agrees with code-point order on every string this module handles.
-/

namespace CmcdManager

/-- A JavaScript number as a rational value `n / d` (not necessarily in
lowest terms; `d = 0` is a degenerate value no code path constructs). -/
structure JsNum where
  n : Int
  d : Nat
deriving DecidableEq, Repr

/-- Multiplication of JS numbers (used for `duration * 1000` etc.). -/
def JsNum.mul (a b : JsNum) : JsNum := ⟨a.n * b.n, a.d * b.d⟩

/-- Subtraction of JS numbers (used for `range.end - start`). -/
def JsNum.sub (a b : JsNum) : JsNum := ⟨a.n * (b.d : Int) - b.n * (a.d : Int), a.d * b.d⟩

/-- Division of JS numbers (used for `/ 1000`, `/ 100`); keeps the
denominator non-negative. -/
def JsNum.div (a b : JsNum) : JsNum :=
  if b.n < 0 then ⟨-(a.n * (b.d : Int)), a.d * b.n.natAbs⟩
  else ⟨a.n * (b.d : Int), a.d * b.n.toNat⟩

/-- JS `<=` on numbers, by cross multiplication. -/
def JsNum.leb (a b : JsNum) : Bool := decide (a.n * (b.d : Int) ≤ b.n * (a.d : Int))

/-- JS `<` on numbers, by cross multiplication. -/
def JsNum.ltb (a b : JsNum) : Bool := decide (a.n * (b.d : Int) < b.n * (a.d : Int))

/-- JS `===` on two numbers: value equality, by cross multiplication. -/
def JsNum.valEq (a b : JsNum) : Bool := decide (a.n * (b.d : Int) = b.n * (a.d : Int))

/-- JS truthiness of a number: nonzero. -/
def JsNum.truthy (a : JsNum) : Bool := decide (a.n ≠ 0)

/-- `Math.round`: round half up, i.e. `⌊x + 1/2⌋ = ⌊(2n + d) / (2d)⌋`. -/
def JsNum.round (a : JsNum) : Int := Int.fdiv (2 * a.n + (a.d : Int)) (2 * (a.d : Int))

/-- Lexicographic `<=` on character lists: the JS string comparison used by
`Array.prototype.sort`'s default comparator on the payload's keys. -/
def charListLe : List Char → List Char → Bool
  | [], _ => true
  | _ :: _, [] => false
  | a :: as, b :: bs => if a = b then charListLe as bs else decide (a < b)

/-- Checks whether `p` is a prefix of `s` (character lists). -/
def isPrefixOfChars : List Char → List Char → Bool
  | [], _ => true
  | _ :: _, [] => false
  | a :: as, b :: bs => a = b && isPrefixOfChars as bs

/-- Substring containment on character lists. -/
def containsSub : List Char → List Char → Bool
  | s, p =>
    isPrefixOfChars p s ||
      (match s with
       | [] => false
       | _ :: rest => containsSub rest p)

/-- JS `String.prototype.includes`. -/
def jsIncludes (s pat : String) : Bool := containsSub s.data pat.data

/-- Uppercase hexadecimal digit. -/
def hexDigitChar (x : Nat) : Char := if x < 10 then Char.ofNat (48 + x) else Char.ofNat (55 + x)

/-- UTF-8 bytes of a character (as numbers `< 256`). -/
def utf8Bytes (c : Char) : List Nat :=
  let x := c.toNat
  if x < 128 then [x]
  else if x < 2048 then [192 + x / 64, 128 + x % 64]
  else if x < 65536 then [224 + x / 4096, 128 + (x / 64) % 64, 128 + x % 64]
  else [240 + x / 262144, 128 + (x / 4096) % 64, 128 + (x / 64) % 64, 128 + x % 64]

/-- Percent-encoding of one character, uppercase hex per UTF-8 byte. -/
def percentEncodeChar (c : Char) : String :=
  String.join ((utf8Bytes c).map (fun b => String.mk ['%', hexDigitChar (b / 16), hexDigitChar (b % 16)]))

/-- The characters `encodeURIComponent` leaves intact:
alphanumerics and `- _ . ! ~ * ' ( )`. -/
def uriUnreservedChar (c : Char) : Bool :=
  c.isAlphanum || c = '-' || c = '_' || c = '.' || c = '!' || c = '~' || c = '*' ||
    c = Char.ofNat 39 || c = '(' || c = ')'

/-- JS `encodeURIComponent`. -/
def encodeURIComponent (s : String) : String :=
  String.join (s.data.map (fun c => if uriUnreservedChar c then String.singleton c else percentEncodeChar c))

/-- The serializer's `value.replace(/"/g, '"')`: each double-quote character
is replaced by a double-quote character. -/
def jsReplaceQuotes (s : String) : String :=
  String.mk (s.data.map (fun c => if c = '"' then '"' else c))

/-- Decimal rendering of a JS number (`${value}` for a number value).
Integer values print with no point; other values print their finite decimal
expansion. JS shortest-round-trip float notation is not modelled: the
fallback branch is unreachable for every value this module prints. -/
def ratToString (q : JsNum) : String :=
  if q.d = 0 then "NaN"
  else
    let sign := if q.n < 0 then "-" else ""
    let a := q.n.natAbs
    if a % q.d = 0 then sign ++ toString (a / q.d)
    else
      match (List.range 40).find? (fun j => (a * 10 ^ (j + 1)) % q.d = 0) with
      | some j =>
        let k := j + 1
        let digits := a * 10 ^ k / q.d
        let ip := digits / 10 ^ k
        let fp := digits % 10 ^ k
        let fpStr := toString fp
        let pad := String.mk (List.replicate (k - fpStr.length) '0')
        sign ++ toString ip ++ "." ++ pad ++ fpStr
      | none => sign ++ toString a ++ "/" ++ toString q.d

/-- A JavaScript value as stored in a CMCD data object. `undef` stands for
the nullish values (`undefined`; `null` never occurs in this module);
`sym` mirrors the serializer's `typeof value === 'symbol'` branch. -/
inductive JsValue where
  | num (q : JsNum)
  | nan
  | str (s : String)
  | bool (b : Bool)
  | sym (description : String)
  | undef
deriving DecidableEq, Repr

/-- A CMCD data object: key/value pairs in insertion order (a JS object
has at most one entry per key). -/
abbrev Data := List (String × JsValue)

/-- JS property write `d[k] = v`: replaces the value in place if the key
exists, otherwise appends the key. -/
def setKey (d : List (String × α)) (k : String) (v : α) : List (String × α) :=
  if d.any (fun p => decide (p.1 = k)) then d.map (fun p => if p.1 = k then (k, v) else p)
  else d ++ [(k, v)]

/-- JS property read `d[k]`. -/
def getVal (d : List (String × α)) (k : String) : Option α :=
  (d.find? (fun p => decide (p.1 = k))).map (fun p => p.2)

/-- JS `Object.assign(dst, src)`. -/
def assignAll (dst src : List (String × α)) : List (String × α) :=
  src.foldl (fun acc p => setKey acc p.1 p.2) dst

/-- The serializer's `isValid`: not `NaN`, not nullish, not the empty
string, not `false`. -/
def isValid (v : JsValue) : Bool :=
  match v with
  | .nan => false
  | .undef => false
  | .str s => s != ""
  | .bool b => b
  | .num _ => true
  | .sym _ => true

/-- JS `value === 1` for an arbitrary value. -/
def jsStrictEqOne (v : JsValue) : Bool :=
  match v with
  | .num q => q.valEq ⟨1, 1⟩
  | _ => false

/-- JS `ToNumber` as applied by `Math.round` inside the numeric formatters.
Strings parse as optionally signed decimal literals (exponents, hex and
`Infinity` forms are not modelled — JS accepts them, but no value of this
module ever routes a string through a numeric formatter); symbols make JS
throw, which likewise no value of this module can trigger. -/
def parseDecimal (s : String) : Option JsNum :=
  let ws := fun (c : Char) => c = ' ' || c = '\t' || c = '\n' || c = '\r'
  let t := ((s.data.dropWhile ws).reverse.dropWhile ws).reverse
  if t = [] then some ⟨0, 1⟩
  else
    let toNatVal := fun (ds : List Char) => ds.foldl (fun acc c => acc * 10 + (c.toNat - 48)) 0
    let signed : Int × List Char :=
      match t with
      | '-' :: cs => (-1, cs)
      | '+' :: cs => (1, cs)
      | cs => (1, cs)
    let intPart := signed.2.takeWhile (fun c => c.isDigit)
    let rest := signed.2.dropWhile (fun c => c.isDigit)
    match rest with
    | [] => if intPart = [] then none else some ⟨signed.1 * toNatVal intPart, 1⟩
    | '.' :: frac =>
      if frac.all (fun c => c.isDigit) && (intPart ≠ [] || frac ≠ []) then
        some ⟨signed.1 * (toNatVal intPart * 10 ^ frac.length + toNatVal frac), 10 ^ frac.length⟩
      else none
    | _ => none

/-- JS number coercion of a stored value (`undefined` and unparsable
strings give `NaN`, modelled as `none`). -/
def jsToNumber (v : JsValue) : Option JsNum :=
  match v with
  | .num q => some q
  | .nan => none
  | .bool b => some ⟨if b then 1 else 0, 1⟩
  | .str s => parseDecimal s
  | .sym _ => none
  | .undef => none

/-- JS string coercion of a stored value (`${value}`). -/
def jsToString (v : JsValue) : String :=
  match v with
  | .num q => ratToString q
  | .nan => "NaN"
  | .str s => s
  | .bool b => if b then "true" else "false"
  | .sym d => d
  | .undef => "undefined"

/-- The serializer's `toRounded`: `Math.round(value)`. -/
def toRounded (v : JsValue) : JsValue :=
  match jsToNumber v with
  | some q => .num ⟨q.round, 1⟩
  | none => .nan

/-- The serializer's `toHundred`: `toRounded(value / 100) * 100`. -/
def toHundred (v : JsValue) : JsValue :=
  match jsToNumber v with
  | some q => .num ⟨(q.div ⟨100, 1⟩).round * 100, 1⟩
  | none => .nan

/-- The serializer's `toUrlSafe`: `encodeURIComponent(value)`. -/
def toUrlSafe (v : JsValue) : JsValue := .str (encodeURIComponent (jsToString v))

/-- The serializer's `formatters` table: `br`, `d`, `tb` round to integer;
`bl`, `dl`, `mtp`, `rtp` round to the nearest multiple of 100; `nor` is
URL-encoded; all other keys are unformatted. -/
def applyFormatter (key : String) (v : JsValue) : JsValue :=
  if key = "br" || key = "d" || key = "tb" then toRounded v
  else if key = "bl" || key = "dl" || key = "mtp" || key = "rtp" then toHundred v
  else if key = "nor" then toUrlSafe v
  else v

/-- One serialized key/value token, following the serializer's `typeof`
chain: quoted string (with the `replace` call) unless the key is `ot`,
`sf` or `st`; bare key for a boolean; `key=description` for a symbol;
`key=value` otherwise. -/
def renderPair (key : String) (v : JsValue) : String :=
  match v with
  | .str s =>
    if key = "ot" || key = "sf" || key = "st" then key ++ "=" ++ s
    else key ++ "=\"" ++ jsReplaceQuotes s ++ "\""
  | .bool _ => key
  | .sym d => key ++ "=" ++ d
  | .num q => key ++ "=" ++ ratToString q
  | .nan => key ++ "=NaN"
  | .undef => key ++ "=undefined"

/-- Whether the serializer keeps an entry: `isValid`, and the `v === 1` /
`pr === 1` default suppressions. -/
def shouldInclude (p : String × JsValue) : Bool :=
  isValid p.2 && !(decide (p.1 = "v") && jsStrictEqOne p.2) &&
    !(decide (p.1 = "pr") && jsStrictEqOne p.2)

/-- Key order used by `Object.keys(data).sort()`. -/
def keyLePair (a b : String × JsValue) : Prop := charListLe a.1.data b.1.data = true

instance : DecidableRel keyLePair := fun a b => by
  unfold keyLePair
  infer_instance

/-- The data's entries in sorted key order (JS `Array.prototype.sort` is a
stable sort). -/
def sortPairs (data : Data) : Data := List.insertionSort keyLePair data

/-- The entries that survive the serializer's validity filtering, in
output order. -/
def includedPairs (data : Data) : Data := (sortPairs data).filter shouldInclude

/-- The token produced for one surviving entry. -/
def renderEntry (p : String × JsValue) : String := renderPair p.1 (applyFormatter p.1 p.2)

/-- The keys that appear in the serialized output, in output order. -/
def outputKeys (data : Data) : List String := (includedPairs data).map Prod.fst

/-- `CmcdManager.serialize`. -/
def serialize (data : Data) : String :=
  String.intercalate "," ((includedPairs data).map renderEntry)

/-- `toHeaders`' `headerMap`: group index per key, unmapped keys default to
the Request group. -/
def headerIdx (key : String) : Nat :=
  if key = "br" || key = "d" || key = "ot" || key = "tb" then 0
  else if key = "bl" || key = "dl" || key = "mtp" || key = "nor" || key = "nrr" || key = "su" then 1
  else if key = "cid" || key = "pr" || key = "sf" || key = "sid" || key = "st" || key = "v" then 2
  else if key = "bs" || key = "rtp" then 3
  else 1

/-- `CmcdManager.toHeaders`: serialize each of the four groups, keeping
only the non-empty ones. -/
def toHeaders (data : Data) : List (String × String) :=
  (List.enum ["Object", "Request", "Session", "Status"]).filterMap fun pair =>
    let value := serialize (data.filter (fun p => decide (headerIdx p.1 = pair.1)))
    if value = "" then none else some ("CMCD-" ++ pair.2, value)

/-- `CmcdManager.toQuery`. -/
def toQuery (data : Data) : String := "CMCD=" ++ encodeURIComponent (serialize data)

/-- `CmcdManager.appendQueryToUri`. -/
def appendQueryToUri (uri query : String) : String :=
  if query = "" then uri
  else if jsIncludes uri "offline:" then uri
  else uri ++ (if jsIncludes uri "?" then "&" else "?") ++ query

namespace ObjectType

def MANIFEST : String := "m"

def AUDIO : String := "a"

def VIDEO : String := "v"

def MUXED : String := "av"

def INIT : String := "i"

def CAPTION : String := "c"

def TIMED_TEXT : String := "tt"

def KEY : String := "k"

def OTHER : String := "o"

end ObjectType

namespace StreamType

def VOD : String := "v"

def LIVE : String := "l"

end StreamType

/-- The CMCD spec version constant. -/
def Version : JsNum := ⟨1, 1⟩

/-- One buffered time range (seconds). -/
structure TimeRange where
  start : JsNum
  «end» : JsNum

/-- A stream (text rendition) with its bandwidth. -/
structure Stream where
  bandwidth : JsNum

/-- A manifest variant: optional video/audio streams plus its own
bandwidth. -/
structure Variant where
  video : Option Stream
  audio : Option Stream
  bandwidth : JsNum

/-- The manifest as read through `playerInterface.getManifest()`. -/
structure Manifest where
  variants : List Variant
  textStreams : List Stream

/-- A snapshot of the read-only player interface: each method's current
return value. -/
structure PlayerInterfaceState where
  getBandwidthEstimate : JsNum
  getBufferedInfo : String → List TimeRange
  getCurrentTime : JsNum
  getManifest : Option Manifest
  getPlaybackRate : JsNum
  isLive : Bool

/-- `shaka.extern.CmcdConfiguration`; an unset session id is the empty
string (falsy, like `undefined`). -/
structure Config where
  enabled : Bool
  useHeaders : Bool
  sessionId : String
  contentId : String
deriving DecidableEq, Repr

/-- The manager's mutable session state. -/
structure CmcdState where
  sid : String
  sf : Option String
  playbackStarted : Bool
  buffering : Bool
  starved : Bool
deriving DecidableEq, Repr

/-- An outbound request: URI candidates and a header mapping. -/
structure Request where
  uris : List String
  headers : List (String × String)
deriving DecidableEq, Repr

/-- `SegmentInfo`. -/
structure SegmentInfo where
  type : String
  init : Bool
  duration : JsNum
  mimeType : String
  codecs : String
  bandwidth : Option JsNum

/-- `ManifestInfo`. -/
structure ManifestInfo where
  format : String

/-- The constructor: session id from the config when truthy, otherwise the
generated random UUID (passed in explicitly). -/
def initState (cfg : Config) (uuid : String) : CmcdState :=
  { sid := if cfg.sessionId = "" then uuid else cfg.sessionId
    sf := none
    playbackStarted := false
    buffering := true
    starved := false }

/-- `setBuffering`. -/
def setBuffering (st : CmcdState) (buffering : Bool) : CmcdState :=
  let st := if !buffering && !st.playbackStarted then { st with playbackStarted := true } else st
  let st := if st.playbackStarted && buffering then { st with starved := true } else st
  { st with buffering := buffering }

/-- `getObjectType_`. -/
def getObjectType (si : SegmentInfo) : Option String :=
  if si.init then some ObjectType.INIT
  else if si.type = "video" then
    (if jsIncludes si.codecs "," then some ObjectType.MUXED else some ObjectType.VIDEO)
  else if si.type = "audio" then some ObjectType.AUDIO
  else if si.type = "text" then
    (if si.mimeType = "application/mp4" then some ObjectType.TIMED_TEXT
     else some ObjectType.CAPTION)
  else none

/-- `getObjectTypeFromMimeType_`. -/
def getObjectTypeFromMimeType (mimeType : String) : Option String :=
  if mimeType = "video/webm" || mimeType = "video/mp4" then some ObjectType.MUXED
  else if mimeType = "application/x-mpegurl" then some ObjectType.MANIFEST
  else none

/-- `getBufferLength_` in milliseconds; `none` is the `NaN` result (no
ranges, or no range containing the current time). -/
def getBufferLength (pl : PlayerInterfaceState) (type : String) : Option JsNum :=
  let ranges := pl.getBufferedInfo type
  if ranges.length = 0 then none
  else
    let start := pl.getCurrentTime
    match ranges.find? (fun r => r.start.leb start && start.leb r.«end») with
    | none => none
    | some r => some ((r.«end».sub start).mul ⟨1000, 1⟩)

/-- `getStreamType_`. -/
def getStreamType (pl : PlayerInterfaceState) : String :=
  if pl.isLive then StreamType.LIVE else StreamType.VOD

/-- The bandwidth of `variant[type] || variant`. -/
def variantStream (v : Variant) (type : String) : JsNum :=
  if type = "video" then
    (match v.video with
     | some s => s.bandwidth
     | none => v.bandwidth)
  else if type = "audio" then
    (match v.audio with
     | some s => s.bandwidth
     | none => v.bandwidth)
  else v.bandwidth

/-- `getTopBandwidth_`: `NaN` (`.ok none`) without a manifest; a thrown
`TypeError` (`.error ()`) when the chosen variants/textStreams array is
empty, since `variants[0]` is then `undefined` and `undefined[type]`
throws; otherwise the maximum bandwidth. -/
def getTopBandwidth (pl : PlayerInterfaceState) (type : String) : Except Unit (Option JsNum) :=
  match pl.getManifest with
  | none => .ok none
  | some manifest =>
    let bws : List JsNum :=
      if type = "text" then manifest.textStreams.map (fun s => s.bandwidth)
      else manifest.variants.map (fun v => variantStream v type)
    match bws with
    | [] => .error ()
    | b :: _ => .ok (some (bws.foldl (fun top x => if top.ltb x then x else top) b))

/-- `createData_`: the baseline fields. -/
def createData (cfg : Config) (st : CmcdState) (pl : PlayerInterfaceState) : Data :=
  [("v", .num Version),
   ("sf", match st.sf with
          | none => .undef
          | some f => .str f),
   ("sid", .str st.sid),
   ("cid", .str cfg.contentId),
   ("mtp", .num (pl.getBandwidthEstimate.div ⟨1000, 1⟩))]

/-- Whether `data.su == null` (key absent or nullish). -/
def suNullish (data : Data) : Bool :=
  match getVal data "su" with
  | none => true
  | some .undef => true
  | some _ => false

/-- The payload-mutation core of `apply_`: merge the baseline data, attach
`pr`, consume the starvation flag for video/muxed object types, and
default `su` to the buffering state. -/
def buildPayload (cfg : Config) (st : CmcdState) (pl : PlayerInterfaceState) (data : Data) :
    CmcdState × Data :=
  let data := assignAll data (createData cfg st pl)
  let data := setKey data "pr" (.num pl.getPlaybackRate)
  let isVideo : Bool :=
    decide (getVal data "ot" = some (.str ObjectType.VIDEO) ∨
            getVal data "ot" = some (.str ObjectType.MUXED))
  let next :=
    if st.starved && isVideo then
      ({ st with starved := false }, setKey (setKey data "bs" (.bool true)) "su" (.bool true))
    else (st, data)
  let data := if suNullish next.2 then setKey next.2 "su" (.bool next.1.buffering) else next.2
  (next.1, data)

/-- `apply_`: the enabled check, the payload construction, then delivery
via headers or via the query string appended to every URI. -/
def apply_ (cfg : Config) (st : CmcdState) (pl : PlayerInterfaceState) (req : Request)
    (data : Data) (useHeaders : Bool) : CmcdState × Request :=
  if cfg.enabled then
    let r := buildPayload cfg st pl data
    if useHeaders then
      let headers := toHeaders r.2
      if headers.length = 0 then (r.1, req)
      else (r.1, { req with headers := assignAll req.headers headers })
    else
      let query := toQuery r.2
      if query = "" then (r.1, req)
      else (r.1, { req with uris := req.uris.map (fun uri => appendQueryToUri uri query) })
  else (st, req)

/-- `applyManifestData`. -/
def applyManifestData (cfg : Config) (st : CmcdState) (pl : PlayerInterfaceState)
    (req : Request) (mi : ManifestInfo) : CmcdState × Request :=
  if cfg.enabled then
    let st := { st with sf := some mi.format }
    apply_ cfg st pl req
      [("ot", .str ObjectType.MANIFEST), ("su", .bool (!st.playbackStarted))] cfg.useHeaders
  else (st, req)

/-- The data-derivation part of `applySegmentData`; `.error ()` is the
exception propagating out of `getTopBandwidth_`. -/
def segmentRequestData (pl : PlayerInterfaceState) (si : SegmentInfo) : Except Unit Data :=
  let data : Data := [("d", .num (si.duration.mul ⟨1000, 1⟩)), ("st", .str (getStreamType pl))]
  let ot := getObjectType si
  let data := setKey data "ot"
    (match ot with
     | some t => .str t
     | none => .undef)
  let isMedia : Bool :=
    decide (ot = some ObjectType.VIDEO ∨ ot = some ObjectType.AUDIO ∨
            ot = some ObjectType.MUXED ∨ ot = some ObjectType.TIMED_TEXT)
  let data :=
    if isMedia then
      setKey data "bl"
        (match getBufferLength pl si.type with
         | none => .nan
         | some q => .num q)
    else data
  let data :=
    match si.bandwidth with
    | some b => if b.truthy then setKey data "br" (.num (b.div ⟨1000, 1⟩)) else data
    | none => data
  match getTopBandwidth pl si.type with
  | .error e => .error e
  | .ok tb =>
    .ok (setKey data "tb"
      (match tb with
       | none => .nan
       | some q => .num (q.div ⟨1000, 1⟩)))

/-- `applySegmentData`: enabled check, data derivation (an internal throw
is caught and leaves the request untouched), then `apply_`. -/
def applySegmentData (cfg : Config) (st : CmcdState) (pl : PlayerInterfaceState)
    (req : Request) (si : SegmentInfo) : CmcdState × Request :=
  if cfg.enabled then
    match segmentRequestData pl si with
    | .error _ => (st, req)
    | .ok data => apply_ cfg st pl req data cfg.useHeaders
  else (st, req)

/-- `applyTextData`: no enabled check of its own; `apply_` performs it. -/
def applyTextData (cfg : Config) (st : CmcdState) (pl : PlayerInterfaceState)
    (req : Request) : CmcdState × Request :=
  apply_ cfg st pl req [("ot", .str ObjectType.CAPTION), ("su", .bool true)] cfg.useHeaders

/-- `appendSrcData`. -/
def appendSrcData (cfg : Config) (st : CmcdState) (pl : PlayerInterfaceState)
    (uri mimeType : String) : String :=
  if cfg.enabled then
    let data := createData cfg st pl
    let data := setKey data "ot"
      (match getObjectTypeFromMimeType mimeType with
       | some t => .str t
       | none => .undef)
    let data := setKey data "su" (.bool true)
    appendQueryToUri uri (toQuery data)
  else uri

/-- `appendTextTrackData`. -/
def appendTextTrackData (cfg : Config) (st : CmcdState) (pl : PlayerInterfaceState)
    (uri : String) : String :=
  if cfg.enabled then
    let data := createData cfg st pl
    let data := setKey data "ot" (.str ObjectType.CAPTION)
    let data := setKey data "su" (.bool true)
    appendQueryToUri uri (toQuery data)
  else uri

/-- Conformance of one entry to the `CmcdManager.Data` typedef's declared
field types (numeric keys hold numbers, string keys strings, flag keys
booleans; any field may be `undefined`; keys outside the typedef are
unconstrained). -/
def keyTypeOk (key : String) (v : JsValue) : Bool :=
  if key = "br" || key = "d" || key = "tb" || key = "bl" || key = "dl" || key = "mtp" ||
      key = "rtp" || key = "pr" || key = "v" then
    match v with
    | .num _ => true
    | .nan => true
    | .undef => true
    | _ => false
  else if key = "nor" || key = "nrr" || key = "ot" || key = "sf" || key = "st" ||
      key = "cid" || key = "sid" then
    match v with
    | .str _ => true
    | .undef => true
    | _ => false
  else if key = "su" || key = "bs" then
    match v with
    | .bool _ => true
    | .undef => true
    | _ => false
  else true

/-- A payload conforming to the `CmcdManager.Data` typedef. -/
def WellTyped (data : Data) : Bool := data.all (fun p => keyTypeOk p.1 p.2)

/-- An enabled query-mode configuration used for concrete runs. -/
def exCfg : Config := ⟨true, false, "sess", "cid1"⟩

/-- A disabled configuration used for concrete runs. -/
def exCfgDisabled : Config := ⟨false, false, "sess", "cid1"⟩

/-- A player snapshot with no manifest and nothing buffered. -/
def exPl : PlayerInterfaceState := ⟨⟨2000000, 1⟩, fun _ => [], ⟨0, 1⟩, none, ⟨1, 1⟩, false⟩

/-- A concrete request. -/
def exReq : Request := ⟨["http://example.com/seg1.mp4"], []⟩

/-- A concrete video media segment. -/
def exSeg : SegmentInfo := ⟨"video", false, ⟨2, 1⟩, "video/mp4", "avc1", none⟩

/-- A manifest whose variants and textStreams arrays are both empty. -/
def exManifestEmpty : Manifest := ⟨[], []⟩

/-- The player snapshot of `exPl` but returning `exManifestEmpty`. -/
def exPlEmptyManifest : PlayerInterfaceState :=
  ⟨⟨2000000, 1⟩, fun _ => [], ⟨0, 1⟩, some exManifestEmpty, ⟨1, 1⟩, false⟩

/-- The session state after: construction, `setBuffering(false)` (playback
starts), `setBuffering(true)` (starvation), then one video-segment apply
call that consumes the starvation flag. -/
def exStateAfterConsume : CmcdState :=
  (applySegmentData exCfg (setBuffering (setBuffering (initState exCfg "uuid-0001") false) true)
    exPl exReq exSeg).1

/-- A session state in which playback has started and a starvation is
pending. -/
def exStarvedState : CmcdState := ⟨"sess", none, true, true, true⟩

/-- A concrete manifest-request info (DASH). -/
def exMi : ManifestInfo := ⟨"d"⟩

/-- An unsorted payload with distinct keys. -/
def exPayload : Data := [("su", .bool true), ("ot", .str "v"), ("br", .num ⟨500, 1⟩)]

/-- The spec's `{ot:"v", su:true}` example payload. -/
def exOtSu : Data := [("ot", .str "v"), ("su", .bool true)]

/-- The spec's `{v:1, pr:1, br:500}` example payload. -/
def exDefaults : Data := [("v", .num ⟨1, 1⟩), ("pr", .num ⟨1, 1⟩), ("br", .num ⟨500, 1⟩)]

theorem charListLe_trans : ∀ (a b c : List Char),
    charListLe a b = true → charListLe b c = true → charListLe a c = true := by
  intro a
  induction a with
  | nil => intro b c _ _; rfl
  | cons x xs ih =>
    intro b c h1 h2
    match b, c with
    | [], _ => simp [charListLe] at h1
    | _ :: _, [] => simp [charListLe] at h2
    | y :: ys, z :: zs =>
      simp only [charListLe] at h1 h2 ⊢
      by_cases hxy : x = y
      · subst hxy
        rw [if_pos rfl] at h1
        by_cases hyz : x = z
        · subst hyz
          rw [if_pos rfl] at h2
          rw [if_pos rfl]
          exact ih ys zs h1 h2
        · rw [if_neg hyz] at h2
          rw [if_neg hyz]
          exact h2
      · rw [if_neg hxy] at h1
        have hlt1 : x < y := of_decide_eq_true h1
        by_cases hyz : y = z
        · have hxz : x < z := hyz ▸ hlt1
          rw [if_neg (ne_of_lt hxz)]
          exact decide_eq_true hxz
        · rw [if_neg hyz] at h2
          have hlt2 : y < z := of_decide_eq_true h2
          have hlt : x < z := lt_trans hlt1 hlt2
          rw [if_neg (ne_of_lt hlt)]
          exact decide_eq_true hlt

theorem charListLe_total : ∀ (a b : List Char),
    charListLe a b = true ∨ charListLe b a = true := by
  intro a
  induction a with
  | nil => intro b; left; rfl
  | cons x xs ih =>
    intro b
    match b with
    | [] => right; rfl
    | y :: ys =>
      simp only [charListLe]
      by_cases hxy : x = y
      · subst hxy
        rw [if_pos rfl, if_pos rfl]
        exact ih ys
      · rw [if_neg hxy, if_neg (Ne.symm hxy)]
        rcases lt_or_gt_of_ne hxy with h | h
        · left; exact decide_eq_true h
        · right; exact decide_eq_true h

theorem charListLe_iff_lex : ∀ (a b : List Char),
    charListLe a b = true ↔ (a = b ∨ List.Lex (· < ·) a b) := by
  intro a
  induction a with
  | nil =>
    intro b
    match b with
    | [] => simp [charListLe]
    | y :: ys => simp [charListLe]; exact List.Lex.nil
  | cons x xs ih =>
    intro b
    match b with
    | [] =>
      simp only [charListLe]
      constructor
      · intro h; exact absurd h (by simp)
      · rintro (h | h)
        · exact absurd h (by simp)
        · cases h
    | y :: ys =>
      simp only [charListLe]
      by_cases hxy : x = y
      · subst hxy
        rw [if_pos rfl]
        rw [ih ys]
        constructor
        · rintro (h | h)
          · subst h; left; rfl
          · right; exact List.Lex.cons h
        · rintro (h | h)
          · left; injection h
          · cases h with
            | cons h => right; exact h
            | rel h => exact absurd h (lt_irrefl x)
      · rw [if_neg hxy]
        constructor
        · intro h
          right
          exact List.Lex.rel (of_decide_eq_true h)
        · rintro (h | h)
          · injection h with h1 _; exact absurd h1 hxy
          · cases h with
            | cons h' => exact absurd rfl hxy
            | rel h' => exact decide_eq_true h'

instance : IsTrans (String × JsValue) keyLePair :=
  ⟨fun _ _ _ h1 h2 => charListLe_trans _ _ _ h1 h2⟩

instance : IsTotal (String × JsValue) keyLePair :=
  ⟨fun _ _ => charListLe_total _ _⟩

theorem stringDataInj {x y : String} (h : x.data = y.data) : x = y :=
  congrArg String.mk h

theorem find_replace_ne {α : Type} {k k2 : String} (v : α) (h : ¬ k2 = k) :
    ∀ (d : List (String × α)),
      List.find? (fun p => decide (p.1 = k2)) (d.map (fun p => if p.1 = k then (k, v) else p)) =
        List.find? (fun p => decide (p.1 = k2)) d := by
  intro d
  induction d with
  | nil => rfl
  | cons p ps ih =>
    by_cases hpk : p.1 = k
    · have e2 : ¬ p.1 = k2 := by rw [hpk]; exact fun hh => h hh.symm
      simp only [List.map_cons, if_pos hpk]
      rw [List.find?_cons_of_neg, List.find?_cons_of_neg, ih]
      · simpa using e2
      · simpa using fun hh => h hh.symm
    · simp only [List.map_cons, if_neg hpk]
      by_cases hq : p.1 = k2
      · rw [List.find?_cons_of_pos, List.find?_cons_of_pos] <;> simpa using hq
      · rw [List.find?_cons_of_neg, List.find?_cons_of_neg, ih] <;> simpa using hq

theorem find_replace_self {α : Type} {k : String} (v : α) :
    ∀ (d : List (String × α)), (d.any fun p => decide (p.1 = k)) = true →
      List.find? (fun p => decide (p.1 = k)) (d.map (fun p => if p.1 = k then (k, v) else p)) =
        some (k, v) := by
  intro d
  induction d with
  | nil => intro hany; simp at hany
  | cons p ps ih =>
    intro hany
    by_cases hpk : p.1 = k
    · simp only [List.map_cons, if_pos hpk]
      rw [List.find?_cons_of_pos]
      simp
    · simp only [List.any_cons] at hany
      have hrest : (ps.any fun p => decide (p.1 = k)) = true := by
        rcases Bool.or_eq_true_iff.mp hany with hh | hh
        · exact absurd (of_decide_eq_true hh) hpk
        · exact hh
      simp only [List.map_cons, if_neg hpk]
      rw [List.find?_cons_of_neg]
      · exact ih hrest
      · simpa using hpk

theorem getVal_setKey_ne {α : Type} (d : List (String × α)) (k k2 : String) (v : α)
    (h : ¬ k2 = k) : getVal (setKey d k v) k2 = getVal d k2 := by
  unfold setKey getVal
  split
  · rw [find_replace_ne v h]
  · rw [List.find?_append]
    have hnone : List.find? (fun p => decide (p.1 = k2)) [(k, v)] = none := by
      rw [List.find?_cons_of_neg]
      · rfl
      · simpa using fun hh => h hh.symm
    rw [hnone]
    cases List.find? (fun p => decide (p.1 = k2)) d <;> rfl

theorem getVal_setKey_self {α : Type} (d : List (String × α)) (k : String) (v : α) :
    getVal (setKey d k v) k = some v := by
  unfold setKey getVal
  split
  case isTrue hany => rw [find_replace_self v d hany]; rfl
  case isFalse hany =>
    have hnone : List.find? (fun p => decide (p.1 = k)) d = none := by
      rw [List.find?_eq_none]
      intro x hx hpx
      exact hany (List.any_eq_true.mpr ⟨x, hx, hpx⟩)
    rw [List.find?_append, hnone]
    rw [List.find?_cons_of_pos]
    · rfl
    · simp

theorem isPrefixOfChars_iff : ∀ (p s : List Char),
    isPrefixOfChars p s = true ↔ ∃ t, s = p ++ t := by
  intro p
  induction p with
  | nil => intro s; simp [isPrefixOfChars]
  | cons a as ih =>
    intro s
    match s with
    | [] =>
      simp [isPrefixOfChars]
    | b :: bs =>
      simp only [isPrefixOfChars, Bool.and_eq_true, decide_eq_true_eq, ih bs]
      constructor
      · rintro ⟨hab, t, ht⟩
        exact ⟨t, by rw [hab, ht]; rfl⟩
      · rintro ⟨t, ht⟩
        injection ht with h1 h2
        exact ⟨h1.symm, t, h2⟩

theorem containsSub_iff : ∀ (s p : List Char),
    containsSub s p = true ↔ ∃ u t, s = u ++ p ++ t := by
  intro s
  induction s with
  | nil =>
    intro p
    unfold containsSub
    simp only [Bool.or_false, isPrefixOfChars_iff]
    constructor
    · rintro ⟨t, ht⟩
      exact ⟨[], t, ht⟩
    · rintro ⟨u, t, ht⟩
      match u, p, t, ht with
      | [], [], [], _ => exact ⟨[], rfl⟩
  | cons c cs ih =>
    intro p
    unfold containsSub
    simp only [Bool.or_eq_true, isPrefixOfChars_iff, ih p]
    constructor
    · rintro (⟨t, ht⟩ | ⟨u, t, ht⟩)
      · exact ⟨[], t, ht⟩
      · exact ⟨c :: u, t, by rw [ht]; rfl⟩
    · rintro ⟨u, t, ht⟩
      match u, ht with
      | [], ht => exact Or.inl ⟨t, ht⟩
      | u1 :: us, ht =>
        injection ht with h1 h2
        exact Or.inr ⟨us, t, h2⟩

theorem jsIncludes_iff (s pat : String) :
    jsIncludes s pat = true ↔ ∃ u t, s.data = u ++ pat.data ++ t :=
  containsSub_iff s.data pat.data

theorem mem_of_mem_includedPairs {data : Data} {p : String × JsValue}
    (h : p ∈ includedPairs data) : p ∈ data ∧ shouldInclude p = true := by
  unfold includedPairs at h
  have h1 := List.of_mem_filter h
  have h2 := List.mem_of_mem_filter h
  have hperm : List.Perm (sortPairs data) data := List.perm_insertionSort keyLePair data
  exact ⟨hperm.mem_iff.mp h2, h1⟩

theorem getVal_baseline_pr (cfg : Config) (st : CmcdState) (pl : PlayerInterfaceState)
    (d : Data) (k : String)
    (h1 : ¬ k = "v") (h2 : ¬ k = "sf") (h3 : ¬ k = "sid") (h4 : ¬ k = "cid")
    (h5 : ¬ k = "mtp") (h6 : ¬ k = "pr") :
    getVal (setKey (assignAll d (createData cfg st pl)) "pr" (.num pl.getPlaybackRate)) k =
      getVal d k := by
  unfold assignAll createData
  simp only [List.foldl_cons, List.foldl_nil]
  rw [getVal_setKey_ne _ _ _ _ h6, getVal_setKey_ne _ _ _ _ h5, getVal_setKey_ne _ _ _ _ h4,
    getVal_setKey_ne _ _ _ _ h3, getVal_setKey_ne _ _ _ _ h2, getVal_setKey_ne _ _ _ _ h1]

/-- C3: when an enabled apply call's payload carries object type `v` or
`av` and `starved` is pending, the built payload forces `bs = true` and
`su = true` and the state comes back with `starved` cleared; a following
apply call from that state (whose fresh payload has no `bs` key) does not
acquire a `bs` key. -/
theorem C3_starvation_consumed_one_shot (cfg : Config) (st : CmcdState)
    (pl : PlayerInterfaceState) (req : Request) (u : Bool) (data data2 : Data)
    (hen : cfg.enabled = true)
    (hst : st.starved = true)
    (hot : getVal data "ot" = some (.str "v") ∨ getVal data "ot" = some (.str "av"))
    (hbs2 : getVal data2 "bs" = none) :
    getVal (buildPayload cfg st pl data).2 "bs" = some (.bool true) ∧
    getVal (buildPayload cfg st pl data).2 "su" = some (.bool true) ∧
    (buildPayload cfg st pl data).1.starved = false ∧
    (apply_ cfg st pl req data u).1.starved = false ∧
    getVal (buildPayload cfg (buildPayload cfg st pl data).1 pl data2).2 "bs" = none := by
  have hotb : getVal (setKey (assignAll data (createData cfg st pl)) "pr"
      (.num pl.getPlaybackRate)) "ot" = getVal data "ot" := by
    apply getVal_baseline_pr <;> decide
  have hvid : decide (getVal (setKey (assignAll data (createData cfg st pl)) "pr"
      (.num pl.getPlaybackRate)) "ot" = some (.str ObjectType.VIDEO) ∨
      getVal (setKey (assignAll data (createData cfg st pl)) "pr"
      (.num pl.getPlaybackRate)) "ot" = some (.str ObjectType.MUXED)) = true := by
    rw [decide_eq_true_eq, hotb]
    rcases hot with h | h
    · exact Or.inl h
    · exact Or.inr h
  have hsunn : suNullish (setKey (setKey (setKey (assignAll data (createData cfg st pl)) "pr"
      (.num pl.getPlaybackRate)) "bs" (.bool true)) "su" (.bool true)) = false := by
    unfold suNullish
    rw [getVal_setKey_self]
  have hfirst : buildPayload cfg st pl data =
      ({ st with starved := false },
        setKey (setKey (setKey (assignAll data (createData cfg st pl)) "pr"
          (.num pl.getPlaybackRate)) "bs" (.bool true)) "su" (.bool true)) := by
    unfold buildPayload
    simp only [hst, hvid, Bool.and_self, if_true, hsunn, Bool.false_eq_true, if_false]
  have hbs : getVal (buildPayload cfg st pl data).2 "bs" = some (.bool true) := by
    rw [hfirst]
    rw [getVal_setKey_ne _ _ _ _ (by decide), getVal_setKey_self]
  have hsu : getVal (buildPayload cfg st pl data).2 "su" = some (.bool true) := by
    rw [hfirst, getVal_setKey_self]
  have hclear : (buildPayload cfg st pl data).1.starved = false := by
    rw [hfirst]
  have happly : (apply_ cfg st pl req data u).1.starved = false := by
    unfold apply_
    rw [hen]
    simp only [if_true]
    split
    · split
      · exact hclear
      · exact hclear
    · split
      · exact hclear
      · exact hclear
  refine ⟨hbs, hsu, hclear, happly, ?_⟩
  set st2 := (buildPayload cfg st pl data).1 with hst2
  have hstv2 : st2.starved = false := hclear
  unfold buildPayload
  simp only [hstv2, Bool.false_and, Bool.false_eq_true, if_false]
  by_cases hsn : suNullish (setKey (assignAll data2 (createData cfg st2 pl)) "pr"
      (.num pl.getPlaybackRate)) = true
  · simp only [hsn, if_true]
    rw [getVal_setKey_ne _ _ _ _ (by decide)]
    rw [getVal_baseline_pr _ _ _ _ _ (by decide) (by decide) (by decide) (by decide)
      (by decide) (by decide)]
    exact hbs2
  · simp only [hsn, Bool.false_eq_true, if_false]
    rw [getVal_baseline_pr _ _ _ _ _ (by decide) (by decide) (by decide) (by decide)
      (by decide) (by decide)]
    exact hbs2

/-- C3 witness: a starved state, a video payload, then a fresh empty
payload. -/
theorem C3_witness :
    getVal (buildPayload exCfg exStarvedState exPl [("ot", .str "v")]).2 "bs" =
      some (.bool true) ∧
    getVal (buildPayload exCfg exStarvedState exPl [("ot", .str "v")]).2 "su" =
      some (.bool true) ∧
    (buildPayload exCfg exStarvedState exPl [("ot", .str "v")]).1.starved = false ∧
    (apply_ exCfg exStarvedState exPl exReq [("ot", .str "v")] false).1.starved = false ∧
    getVal (buildPayload exCfg (buildPayload exCfg exStarvedState exPl
      [("ot", .str "v")]).1 exPl []).2 "bs" = none :=
  C3_starvation_consumed_one_shot exCfg exStarvedState exPl exReq false [("ot", .str "v")] []
    rfl rfl (Or.inl (by decide)) rfl

/-- C1: the spec claims embedded double-quote characters in string values
are escaped in the `key="value"` output. The code's
`value.replace(/"/g, '"')` replaces a double quote by a double quote, an
identity: nothing is escaped, and `serialize({cid: 'a"b'})` emits
`cid="a"b"` with the inner quote verbatim. -/
theorem C1_quote_escaping_is_identity :
    (∀ s, jsReplaceQuotes s = s) ∧
    serialize [("cid", .str "a\"b")] = "cid=\"a\"b\"" := by
  constructor
  · intro s
    unfold jsReplaceQuotes
    have h : ∀ (l : List Char), l.map (fun c => if c = '"' then '"' else c) = l := by
      intro l
      induction l with
      | nil => rfl
      | cons c cs ih =>
        simp only [List.map_cons, ih]
        by_cases hc : c = '"'
        · rw [if_pos hc, hc]
        · rw [if_neg hc]
    rw [h s.data]
  · decide

/-- C2 (amended): `setBuffering` is level-triggered, not edge-triggered.
After `setBuffering(b)`: `starved = starved ∨ (playbackStarted ∧ b)` (with
`playbackStarted` its pre-call value), `playbackStarted` becomes true on
any non-buffering call, and `buffering` mirrors the argument. In
particular a repeated `setBuffering(true)` while playback has started sets
`starved` again, even right after it was consumed. -/
theorem C2_setBuffering_characterization (st : CmcdState) (b : Bool) :
    (setBuffering st b).starved = (st.starved || (st.playbackStarted && b)) ∧
    (setBuffering st b).playbackStarted = (st.playbackStarted || !b) ∧
    (setBuffering st b).buffering = b := by
  rcases st with ⟨sid, sf, ps, buf, sv⟩
  cases b <;> cases ps <;> cases sv <;> simp [setBuffering]

/-- C2 counterexample: after playback start, a starvation, and one
video-segment apply call that consumes (clears) the flag, the state is not
buffering-false — yet a second `setBuffering(true)` with no intervening
`setBuffering(false)` sets `starved` back to true, contradicting the
claimed idempotence of repeated same-value calls. -/
theorem C2_counterexample :
    exStateAfterConsume.starved = false ∧
    exStateAfterConsume.playbackStarted = true ∧
    exStateAfterConsume.buffering = true ∧
    (setBuffering exStateAfterConsume true).starved = true := by
  decide

/-- C7: `appendQueryToUri` returns the URI unchanged for an empty query or
a URI containing `offline:`; otherwise it appends the query after `&` when
the URI already has a `?`, after `?` otherwise; including the spec's two
concrete examples. -/
theorem C7_appendQueryToUri_spec (uri query : String) :
    (query = "" → appendQueryToUri uri query = uri) ∧
    ((∃ u t, uri.data = u ++ ("offline:").data ++ t) → appendQueryToUri uri query = uri) ∧
    (query ≠ "" → (¬ ∃ u t, uri.data = u ++ ("offline:").data ++ t) →
      appendQueryToUri uri query =
        uri ++ (if jsIncludes uri "?" then "&" else "?") ++ query) ∧
    appendQueryToUri "http://a/b?x=1" "CMCD=foo" = "http://a/b?x=1&CMCD=foo" ∧
    appendQueryToUri "http://a/b" "CMCD=foo" = "http://a/b?CMCD=foo" := by
  refine ⟨?_, ?_, ?_, by decide, by decide⟩
  · intro h
    simp [appendQueryToUri, h]
  · intro h
    have hin : jsIncludes uri "offline:" = true := (jsIncludes_iff _ _).mpr h
    by_cases hq : query = ""
    · simp [appendQueryToUri, hq]
    · simp [appendQueryToUri, hq, hin]
  · intro hq hnin
    have hin : jsIncludes uri "offline:" = false := by
      cases hh : jsIncludes uri "offline:"
      · rfl
      · exact absurd ((jsIncludes_iff _ _).mp hh) hnin
    simp [appendQueryToUri, hq, hin]

/-- C7 witness: the three branches at concrete inputs. -/
theorem C7_witness :
    appendQueryToUri "http://x/y" "" = "http://x/y" ∧
    appendQueryToUri "offline:v1" "CMCD=foo" = "offline:v1" ∧
    appendQueryToUri "http://a/b" "CMCD=foo" = "http://a/b?CMCD=foo" :=
  ⟨(C7_appendQueryToUri_spec "http://x/y" "").1 rfl,
   (C7_appendQueryToUri_spec "offline:v1" "CMCD=foo").2.1 ⟨[], ("v1").data, by decide⟩,
   (C7_appendQueryToUri_spec "http://a/b" "CMCD=foo").2.2.2.2⟩

/-- C9: the offline guard is a plain substring test: any URI containing
`offline:` anywhere — here an http URI with `offline:` inside its query
string — is returned unchanged for every non-empty query. -/
theorem C9_offline_substring_anywhere (uri query : String) (_hq : query ≠ "")
    (hin : ∃ u t, uri.data = u ++ ("offline:").data ++ t) :
    appendQueryToUri uri query = uri ∧
    appendQueryToUri "http://h/p?a=offline:1" "CMCD=foo" = "http://h/p?a=offline:1" := by
  refine ⟨?_, by decide⟩
  have h2 : jsIncludes uri "offline:" = true := (jsIncludes_iff _ _).mpr hin
  simp [appendQueryToUri, h2]

/-- C9 witness: an http URI whose query string contains `offline:`. -/
theorem C9_witness :
    ("CMCD=foo" : String) ≠ "" ∧
    (appendQueryToUri "http://h/p?a=offline:1" "CMCD=foo" = "http://h/p?a=offline:1" ∧
     appendQueryToUri "http://h/p?a=offline:1" "CMCD=foo" = "http://h/p?a=offline:1") :=
  ⟨by decide,
   C9_offline_substring_anywhere "http://h/p?a=offline:1" "CMCD=foo" (by decide)
     ⟨("http://h/p?a=").data, ("1").data, by decide⟩⟩

/-- C8: with the enabled flag false, every entry point leaves its input
unchanged — `applyTextData` through the check inside `apply_`, the others
through their own early return. -/
theorem C8_disabled_no_op (cfg : Config) (st : CmcdState) (pl : PlayerInterfaceState)
    (req : Request) (mi : ManifestInfo) (si : SegmentInfo) (uri mimeType uri2 : String)
    (h : cfg.enabled = false) :
    applyManifestData cfg st pl req mi = (st, req) ∧
    applySegmentData cfg st pl req si = (st, req) ∧
    applyTextData cfg st pl req = (st, req) ∧
    appendSrcData cfg st pl uri mimeType = uri ∧
    appendTextTrackData cfg st pl uri2 = uri2 := by
  refine ⟨?_, ?_, ?_, ?_, ?_⟩ <;>
    simp [applyManifestData, applySegmentData, applyTextData, apply_, appendSrcData,
      appendTextTrackData, h]

/-- C8 witness: the five entry points at concrete inputs with a disabled
configuration. -/
theorem C8_witness :
    exCfgDisabled.enabled = false ∧
    (applyManifestData exCfgDisabled exStarvedState exPl exReq exMi = (exStarvedState, exReq) ∧
     applySegmentData exCfgDisabled exStarvedState exPl exReq exSeg = (exStarvedState, exReq) ∧
     applyTextData exCfgDisabled exStarvedState exPl exReq = (exStarvedState, exReq) ∧
     appendSrcData exCfgDisabled exStarvedState exPl "http://a/b" "video/mp4" = "http://a/b" ∧
     appendTextTrackData exCfgDisabled exStarvedState exPl "http://a/c.vtt" = "http://a/c.vtt") :=
  ⟨rfl,
   C8_disabled_no_op exCfgDisabled exStarvedState exPl exReq exMi exSeg
     "http://a/b" "video/mp4" "http://a/c.vtt" rfl⟩

/-- C10: with a manifest present whose relevant array (textStreams for a
text segment, variants otherwise) is empty, the top-bandwidth derivation
throws, the catch at the `applySegmentData` boundary fires, and the
request is returned entirely unmodified — no CMCD fields at all. -/
theorem C10_empty_variants_request_unmodified (cfg : Config) (st : CmcdState)
    (pl : PlayerInterfaceState) (req : Request) (si : SegmentInfo) (m : Manifest)
    (hen : cfg.enabled = true) (hm : pl.getManifest = some m)
    (hempty : (si.type = "text" ∧ m.textStreams = []) ∨ (¬ si.type = "text" ∧ m.variants = [])) :
    applySegmentData cfg st pl req si = (st, req) := by
  have herr : segmentRequestData pl si = .error () := by
    unfold segmentRequestData getTopBandwidth
    rcases hempty with ⟨h1, h2⟩ | ⟨h1, h2⟩ <;> simp [hm, h1, h2]
  simp [applySegmentData, hen, herr]

/-- C10 witness: a video segment against a manifest with an empty variants
array. -/
theorem C10_witness :
    exCfg.enabled = true ∧
    exPlEmptyManifest.getManifest = some exManifestEmpty ∧
    applySegmentData exCfg exStarvedState exPlEmptyManifest exReq exSeg =
      (exStarvedState, exReq) :=
  ⟨rfl, rfl,
   C10_empty_variants_request_unmodified exCfg exStarvedState exPlEmptyManifest exReq exSeg
     exManifestEmpty rfl rfl (Or.inr ⟨by decide, rfl⟩)⟩

/-- C4: for any payload with distinct keys, the keys surviving into the
serialized output appear in strictly ascending lexicographic order
(standard `List.Lex` on the keys' characters), independent of insertion
order; and `serialize` is exactly the comma-join over those entries. -/
theorem C4_output_keys_sorted (data : Data) (hnd : (data.map Prod.fst).Nodup) :
    List.Pairwise (fun a b : String => List.Lex (· < ·) a.data b.data) (outputKeys data) ∧
    serialize data = String.intercalate "," ((includedPairs data).map renderEntry) := by
  refine ⟨?_, rfl⟩
  have hs : List.Pairwise keyLePair (sortPairs data) := List.sorted_insertionSort keyLePair data
  have hsub : List.Sublist (includedPairs data) (sortPairs data) := List.filter_sublist _
  have hp : List.Pairwise keyLePair (includedPairs data) := hs.sublist hsub
  have hkeys : List.Pairwise (fun a b : String => charListLe a.data b.data = true)
      (outputKeys data) := hp.map Prod.fst (fun _ _ hab => hab)
  have hperm : List.Perm (sortPairs data) data := List.perm_insertionSort keyLePair data
  have hnd1 : ((sortPairs data).map Prod.fst).Nodup := ((hperm.map Prod.fst).nodup_iff).mpr hnd
  have hnd2 : (outputKeys data).Nodup := hnd1.sublist (hsub.map Prod.fst)
  have hand := hkeys.and hnd2
  refine hand.imp ?_
  intro a b hab
  obtain ⟨hle, hne⟩ := hab
  rcases (charListLe_iff_lex _ _).mp hle with he | hlex
  · exact absurd (stringDataInj he) hne
  · exact hlex

/-- C4 witness: an unsorted three-key payload. -/
theorem C4_witness :
    (exPayload.map Prod.fst).Nodup ∧
    (List.Pairwise (fun a b : String => List.Lex (· < ·) a.data b.data) (outputKeys exPayload) ∧
     serialize exPayload = String.intercalate "," ((includedPairs exPayload).map renderEntry)) :=
  ⟨by decide, C4_output_keys_sorted exPayload (by decide)⟩

/-- C5: every entry surviving into the serialized output comes from the
payload and its value is not `NaN`, not nullish, not the empty string and
not boolean `false`; a surviving `v` or `pr` entry is never number 1; and
`serialize({v:1, pr:1, br:500})` is exactly `"br=500"`. -/
theorem C5_validity_and_default_suppression (data : Data) (k : String) (v : JsValue)
    (h : (k, v) ∈ includedPairs data) :
    ((k, v) ∈ data ∧ v ≠ .nan ∧ v ≠ .undef ∧ v ≠ .str "" ∧ v ≠ .bool false ∧
      (k = "v" → jsStrictEqOne v = false) ∧ (k = "pr" → jsStrictEqOne v = false)) ∧
    serialize exDefaults = "br=500" := by
  refine ⟨?_, by decide⟩
  obtain ⟨hmem, hinc⟩ := mem_of_mem_includedPairs h
  simp only [shouldInclude, Bool.and_eq_true, Bool.not_eq_true'] at hinc
  obtain ⟨⟨hval, hv1⟩, hpr1⟩ := hinc
  refine ⟨hmem, ?_, ?_, ?_, ?_, ?_, ?_⟩
  · intro he; subst he; simp [isValid] at hval
  · intro he; subst he; simp [isValid] at hval
  · intro he; subst he; simp [isValid] at hval
  · intro he; subst he; simp [isValid] at hval
  · intro hk
    rcases Bool.and_eq_false_iff.mp hv1 with hh | hh
    · rw [hk] at hh; simp at hh
    · exact hh
  · intro hk
    rcases Bool.and_eq_false_iff.mp hpr1 with hh | hh
    · rw [hk] at hh; simp at hh
    · exact hh

/-- C5 witness: the `br` entry of the spec's example payload. -/
theorem C5_witness :
    (("br", JsValue.num ⟨500, 1⟩) ∈ includedPairs exDefaults) ∧
    ((("br", JsValue.num ⟨500, 1⟩) ∈ exDefaults ∧ JsValue.num ⟨500, 1⟩ ≠ .nan ∧
      JsValue.num ⟨500, 1⟩ ≠ .undef ∧ JsValue.num ⟨500, 1⟩ ≠ .str "" ∧
      JsValue.num ⟨500, 1⟩ ≠ .bool false ∧
      ("br" = "v" → jsStrictEqOne (JsValue.num ⟨500, 1⟩) = false) ∧
      ("br" = "pr" → jsStrictEqOne (JsValue.num ⟨500, 1⟩) = false)) ∧
     serialize exDefaults = "br=500") :=
  ⟨by decide, C5_validity_and_default_suppression exDefaults "br" (.num ⟨500, 1⟩) (by decide)⟩

/-- C6: over payloads conforming to the `Data` typedef, every surviving
boolean entry renders as a bare key token, surviving string entries at
`ot`/`sf`/`st` render unquoted as `key=value`, surviving numeric entries
render as `key=<number>`, tokens are comma-joined with no spaces, and
`serialize({ot:"v", su:true})` is exactly `"ot=v,su"`. -/
theorem C6_token_formatting (data : Data) (hwt : WellTyped data = true) (k : String)
    (v : JsValue) (hmem : (k, v) ∈ includedPairs data) :
    (∀ b, v = .bool b → renderEntry (k, v) = k) ∧
    (∀ s, v = .str s → (k = "ot" ∨ k = "sf" ∨ k = "st") →
      renderEntry (k, v) = k ++ "=" ++ s) ∧
    (∀ q, v = .num q → ∃ q2, renderEntry (k, v) = k ++ "=" ++ ratToString q2) ∧
    serialize data = String.intercalate "," ((includedPairs data).map renderEntry) ∧
    serialize exOtSu = "ot=v,su" := by
  obtain ⟨hdmem, _⟩ := mem_of_mem_includedPairs hmem
  have hko : keyTypeOk k v = true := by
    have hall := List.all_eq_true.mp hwt (k, v) hdmem
    exact hall
  refine ⟨?_, ?_, ?_, rfl, by decide⟩
  · intro b hb
    subst hb
    have hfmt : applyFormatter k (.bool b) = .bool b := by
      unfold applyFormatter
      split_ifs with h1 h2 h3
      · exfalso
        simp only [Bool.or_eq_true, decide_eq_true_eq] at h1
        rcases h1 with (h | h) | h <;> subst h <;> exact Bool.false_ne_true hko
      · exfalso
        simp only [Bool.or_eq_true, decide_eq_true_eq] at h2
        rcases h2 with ((h | h) | h) | h <;> subst h <;> exact Bool.false_ne_true hko
      · exfalso
        subst h3
        exact Bool.false_ne_true hko
      · rfl
    unfold renderEntry
    rw [hfmt]
    rfl
  · intro s hs hks
    subst hs
    unfold renderEntry
    rcases hks with hk | hk | hk <;> subst hk <;> simp [applyFormatter, renderPair]
  · intro q hq
    subst hq
    unfold renderEntry applyFormatter
    split_ifs with h1 h2 h3
    · exact ⟨⟨JsNum.round q, 1⟩, by simp [toRounded, jsToNumber, renderPair]⟩
    · exact ⟨⟨(JsNum.div q ⟨100, 1⟩).round * 100, 1⟩, by simp [toHundred, jsToNumber, renderPair]⟩
    · exfalso
      subst h3
      exact Bool.false_ne_true hko
    · exact ⟨q, rfl⟩

/-- C6 witness: both entries of the spec's `{ot:"v", su:true}` example. -/
theorem C6_witness :
    WellTyped exOtSu = true ∧
    (("su", JsValue.bool true) ∈ includedPairs exOtSu) ∧
    renderEntry ("su", JsValue.bool true) = "su" ∧
    (("ot", JsValue.str "v") ∈ includedPairs exOtSu) ∧
    renderEntry ("ot", JsValue.str "v") = "ot" ++ "=" ++ "v" ∧
    serialize exOtSu = "ot=v,su" :=
  ⟨by decide, by decide,
   (C6_token_formatting exOtSu (by decide) "su" (.bool true) (by decide)).1 true rfl,
   by decide,
   (C6_token_formatting exOtSu (by decide) "ot" (.str "v") (by decide)).2.1 "v" rfl (Or.inl rfl),
   (C6_token_formatting exOtSu (by decide) "su" (.bool true) (by decide)).2.2.2.2⟩

end CmcdManager

